import Mathlib

/-!
Shallow embedding of the lifecycle-management core of the
esp32-lifecycle-manager firmware (release resolver / firmware transfer and
verification pipeline, slot/boot-state manager, restart-counter and
factory-reset orchestrator), together with theorems settling the spec's
claims about it.

Conventions of the embedding:
* C strings become `String` / `Option String` (a `none` models a NULL
  pointer); raw bytes become `Nat` (always < 256 where it matters).
* The NVS key-value store, the partition table and the boot pointer are
  explicit state records; every mutation also emits an event into a trace so
  that frame and ordering properties can be stated.
* External collaborators (HTTP client, `esp_https_ota` streaming, flash
  primitives, timers) are modelled as environment records holding their
  outcomes; the spec (section 1) places their internals out of scope.
-/

namespace LCM

/-! ### Version comparator (src/main/github_update.c, lines 29-50)

`parse_version` calls `sscanf(str, "%d.%d.%d", ...)`.  The `%d` conversion
skips C whitespace, accepts an optional sign and then one or more decimal
digits; a literal `.` in the format matches exactly one `.` in the input;
trailing input beyond the third conversion is ignored.  The scanner below
models exactly that (with unbounded integers, since the claims only involve
small values). -/

/-- Character class of C `isspace`, used by `sscanf` `%d` to skip leading
whitespace. -/
def isCSpace (c : Char) : Bool :=
  c == ' ' || c == '\t' || c == '\n' || c == '\r' || c == '\x0b' || c == '\x0c'

/-- Drops the leading run of C whitespace. -/
def skipWs : List Char → List Char
  | [] => []
  | c :: rest => if isCSpace c then skipWs rest else c :: rest

/-- Splits a character list into its leading run of decimal digits and the
remainder. -/
def takeDigits : List Char → (List Char × List Char)
  | [] => ([], [])
  | c :: rest =>
    if c.isDigit then
      let p := takeDigits rest
      (c :: p.1, p.2)
    else ([], c :: rest)

/-- Numeric value of a digit run, most significant first. -/
def digitsVal (ds : List Char) : Nat :=
  ds.foldl (fun acc c => acc * 10 + (c.toNat - Char.toNat '0')) 0

/-- One `%d` conversion of `sscanf`: skip whitespace, optional sign, then at
least one digit; returns the value and the unconsumed input, or `none` on a
matching failure. -/
def scanInt (cs : List Char) : Option (Int × List Char) :=
  match skipWs cs with
  | [] => none
  | c :: rest =>
    if c = '-' then
      let p := takeDigits rest
      if p.1.isEmpty then none else some (-(digitsVal p.1 : Int), p.2)
    else if c = '+' then
      let p := takeDigits rest
      if p.1.isEmpty then none else some ((digitsVal p.1 : Int), p.2)
    else
      let p := takeDigits (c :: rest)
      if p.1.isEmpty then none else some ((digitsVal p.1 : Int), p.2)

/-- The whole `sscanf(str, "%d.%d.%d", &maj, &min, &pat)` call: `some` exactly
when all three conversions succeed (the C code tests `parsed < 3`). -/
def scanTriple (cs : List Char) : Option (Int × Int × Int) :=
  match scanInt cs with
  | none => none
  | some (a, r1) =>
    match r1 with
    | [] => none
    | c1 :: r2 =>
      if c1 = '.' then
        match scanInt r2 with
        | none => none
        | some (b, r3) =>
          match r3 with
          | [] => none
          | c2 :: r4 =>
            if c2 = '.' then
              match scanInt r4 with
              | none => none
              | some (c, _) => some (a, b, c)
            else none
      else none

/-- Result of `parse_version`: the three `int` out-parameters plus the
boolean return value. -/
structure VersionTriple where
  maj : Int
  mnr : Int
  pat : Int
  valid : Bool
deriving DecidableEq, Repr

/-- The all-zero invalid triple produced on every failure path. -/
def invalidTriple : VersionTriple := ⟨0, 0, 0, false⟩

/-- Strips one leading `v` or `V` (the C code advances `str` by one). -/
def stripV : List Char → List Char
  | [] => []
  | c :: rest => if c = 'v' ∨ c = 'V' then rest else c :: rest

/-- Mirrors `parse_version` (github_update.c lines 29-43): `none` models a
NULL `str`; the out-parameters are zeroed first and re-zeroed when fewer than
three components were converted. -/
def parse_version (str : Option String) : VersionTriple :=
  match str with
  | none => invalidTriple
  | some s =>
    match scanTriple (stripV s.toList) with
    | some (a, b, c) => ⟨a, b, c, true⟩
    | none => invalidTriple

/-- Mirrors `cmp_version` (github_update.c lines 45-50). -/
def cmp_version (aMaj aMin aPat bMaj bMin bPat : Int) : Int :=
  if aMaj ≠ bMaj then aMaj - bMaj
  else if aMin ≠ bMin then aMin - bMin
  else aPat - bPat

/-- Spec-side definition, following the spec's words for claim C8: the input,
after stripping one leading `v`/`V`, consists of exactly three dot-separated
non-empty runs of decimal digits and nothing else.  Used only to compare the
spec's acceptance condition against the code's. -/
def specThreeDotUints (s : String) : Bool :=
  let cs := stripV s.toList
  let p1 := takeDigits cs
  if p1.1.isEmpty then false
  else
    match p1.2 with
    | [] => false
    | c1 :: r2 =>
      if c1 = '.' then
        let p2 := takeDigits r2
        if p2.1.isEmpty then false
        else
          match p2.2 with
          | [] => false
          | c2 :: r4 =>
            if c2 = '.' then
              let p3 := takeDigits r4
              if p3.1.isEmpty then false else p3.2.isEmpty
            else false
      else false

/-! ### Persistent state and event traces for the update pipeline

The `fwcfg`/`lcm` NVS namespaces hold the InstalledFirmwareRecord
(`installed_ver`, `installed_part`) and the UpdateRequestFlag (`do_update`).
Every mutating NVS or boot-pointer operation emits an event, so frame claims
("no persisted byte changed", "no commit") are statements about the trace. -/

/-- ESP-IDF error codes that the embedded functions distinguish. -/
inductive EspErr where
  | ok
  | fail
  | invalidArg
  | notFound
deriving DecidableEq, Repr

/-- The NVS keys read and written by github_update.c. -/
structure NVSState where
  installed_ver : Option String
  installed_part : Option String
  do_update : Option Nat
deriving DecidableEq, Repr

/-- One application partition as seen through the ESP-IDF partition API:
`version` is the embedded app-descriptor version string (`none` models a
failing `esp_ota_get_partition_description`). -/
structure AppPart where
  label : String
  subtype : Nat
  address : Nat
  version : Option String
deriving DecidableEq, Repr

/-- System state touched by the update pipeline: the NVS records, the
bootloader's boot pointer (an address) and the APP partition table. -/
structure SysState where
  nvs : NVSState
  bootPointer : Option Nat
  parts : List AppPart
deriving DecidableEq, Repr

/-- Trace events emitted by the embedded update-pipeline functions. -/
inductive Ev where
  | setVer (v : String)
  | setLabel (l : String)
  | setFlag (v : Nat)
  | commit
  | bootSet (addr : Nat)
  | upToDate
  | transferStart
  | cmpLen
  | cmpDigest
  | restart
deriving DecidableEq, Repr

/-- `ESP_PARTITION_SUBTYPE_APP_OTA_MIN` (0x10). -/
def OTA_MIN : Nat := 16

/-- `ESP_PARTITION_SUBTYPE_APP_OTA_MAX` (0x10 + 16); the C range checks use
`subtype <= ESP_PARTITION_SUBTYPE_APP_OTA_MAX`, hence the inclusive bound. -/
def OTA_MAX : Nat := 32

/-- `strlcpy` into the 32-byte `truncated` buffer keeps at most 31
characters. -/
def strTrunc31 (v : String) : String := String.mk (v.toList.take 31)

/-- Version half of `store_installed_version_if_needed` (lines 71-95):
`nvs_set_str(installed_ver, truncated)` happens only when the stored value
is absent or differs; returns the `version_changed` flag, the new state and
the write events. -/
def storeVerStep (truncated : String) (s : NVSState) :
    Bool × NVSState × List Ev :=
  match s.installed_ver with
  | some existing =>
    if existing ≠ truncated then
      (true, { s with installed_ver := some truncated }, [Ev.setVer truncated])
    else (false, s, [])
  | none =>
    (true, { s with installed_ver := some truncated }, [Ev.setVer truncated])

/-- Label half of `store_installed_version_if_needed` (lines 97-123):
`nvs_set_str(installed_part, label)` happens only for a non-NULL, non-empty
label that is absent or differs. -/
def storeLabelStep (plabel : Option String) (s : NVSState) :
    Bool × NVSState × List Ev :=
  match plabel with
  | some l =>
    if l ≠ "" then
      match s.installed_part with
      | some ex =>
        if ex ≠ l then
          (true, { s with installed_part := some l }, [Ev.setLabel l])
        else (false, s, [])
      | none => (true, { s with installed_part := some l }, [Ev.setLabel l])
    else (false, s, [])
  | none => (false, s, [])

/-- Mirrors `store_installed_version_if_needed` (github_update.c lines
52-144): rejects a NULL/empty version, writes `installed_ver` only when it
differs from (the truncation of) the stored value, writes `installed_part`
only when a non-empty label is supplied and differs, and commits only when
something was written.  NVS open/read/write are modelled as reliable. -/
def store_installed_version_if_needed (version : Option String)
    (plabel : Option String) (s : NVSState) : EspErr × NVSState × List Ev :=
  match version with
  | none => (.invalidArg, s, [])
  | some v =>
    if v = "" then (.invalidArg, s, [])
    else
      let r1 := storeVerStep (strTrunc31 v) s
      let r2 := storeLabelStep plabel r1.2.1
      if r1.1 ∨ r2.1 then (.ok, r2.2.1, r1.2.2 ++ r2.2.2 ++ [Ev.commit])
      else (.ok, r2.2.1, r1.2.2 ++ r2.2.2)

/-- Mirrors `read_update_request_flag` (lines 202-221). -/
def read_update_request_flag (s : NVSState) : Bool :=
  match s.do_update with
  | some v => v ≠ 0
  | none => false

/-- Mirrors `write_update_request_flag` (lines 223-255): no write and no
commit when the stored byte already equals the requested value. -/
def write_update_request_flag (value : Bool) (s : NVSState) :
    EspErr × NVSState × List Ev :=
  let target : Nat := if value then 1 else 0
  match s.do_update with
  | some cur =>
    if cur = target then (.ok, s, [])
    else (.ok, { s with do_update := some target }, [Ev.setFlag target, Ev.commit])
  | none => (.ok, { s with do_update := some target }, [Ev.setFlag target, Ev.commit])

/-- `esp_partition_find_first(ESP_PARTITION_TYPE_APP, ESP_PARTITION_SUBTYPE_ANY,
label)` over the APP partition table. -/
def findAppByLabel (parts : List AppPart) (lbl : String) : Option AppPart :=
  parts.find? (fun p => p.label = lbl)

/-- `esp_partition_find_first(ESP_PARTITION_TYPE_APP, subtype, NULL)`. -/
def findAppBySubtype (parts : List AppPart) (st : Nat) : Option AppPart :=
  parts.find? (fun p => p.subtype = st)

/-- Loop body of `find_partition_for_version` (lines 257-286) over the list
of OTA subtypes still to try. -/
def findForVersionAux (parts : List AppPart) (maj mnr pat : Int) :
    List Nat → Option AppPart
  | [] => none
  | st :: rest =>
    match findAppBySubtype parts st with
    | none => findForVersionAux parts maj mnr pat rest
    | some p =>
      match p.version with
      | none => findForVersionAux parts maj mnr pat rest
      | some vs =>
        let t := parse_version (some vs)
        if t.valid then
          if t.maj = maj ∧ t.mnr = mnr ∧ t.pat = pat then some p
          else findForVersionAux parts maj mnr pat rest
        else findForVersionAux parts maj mnr pat rest

/-- Mirrors `find_partition_for_version`: scans subtypes `OTA_MIN ..
OTA_MAX` (inclusive, as the C loop does) for a partition whose descriptor
version parses to exactly the requested triple. -/
def find_partition_for_version (parts : List AppPart) (maj mnr pat : Int) :
    Option AppPart :=
  findForVersionAux parts maj mnr pat (List.range' OTA_MIN (OTA_MAX - OTA_MIN + 1))

/-- Target resolution of `set_boot_partition_for_installed_firmware` (lines
288-314): prefer the stored partition label when it names an OTA app
partition, otherwise scan for a partition holding the requested version. -/
def resolveBootTarget (maj mnr pat : Int) (s : SysState) : Option AppPart :=
  let fromLabel : Option AppPart :=
    match s.nvs.installed_part with
    | none => none
    | some lbl =>
      match findAppByLabel s.parts lbl with
      | none => none
      | some t =>
        if OTA_MIN ≤ t.subtype ∧ t.subtype ≤ OTA_MAX then some t else none
  match fromLabel with
  | some t => some t
  | none => find_partition_for_version s.parts maj mnr pat

/-- Mirrors `set_boot_partition_for_installed_firmware` (lines 288-333).
Returns the error code, the `partition_changed` out-parameter, the new state
and the trace.  When the current boot partition already has the target's
address nothing is written and `partition_changed` is false. -/
def set_boot_partition_for_installed_firmware (maj mnr pat : Int)
    (s : SysState) : EspErr × Bool × SysState × List Ev :=
  match resolveBootTarget maj mnr pat s with
  | none => (.notFound, false, s, [])
  | some t =>
    match s.bootPointer with
    | some addr =>
      if addr = t.address then (.ok, false, s, [])
      else (.ok, true, { s with bootPointer := some t.address }, [Ev.bootSet t.address])
    | none =>
      (.ok, true, { s with bootPointer := some t.address }, [Ev.bootSet t.address])

/-! ### Firmware transfer and verification pipeline
(`github_update_from_urls`, github_update.c lines 583-709) -/

/-- Outcomes of the external collaborators used by one transfer attempt:
`sigDownload` is what `download_signature` returned (`none` = download
error, otherwise the received bytes); `updatePart` is
`esp_ota_get_next_update_partition(NULL)`; `otaOk` is the result of the
one-shot `esp_https_ota` call — on success that API has already run
`esp_https_ota_finish`, which calls `esp_ota_set_boot_partition` on the
freshly written slot, so a successful stream moves the boot pointer to the
update slot BEFORE the code's own signature checks run (on failure nothing
is written to the boot pointer); `imageLen` is the slot-metadata length from
`esp_image_get_metadata`; `slotDigest n` is the SHA-384 digest
`partition_sha384` computes over the first `n` bytes of the slot;
`newImageVersion` is the descriptor version embedded in the freshly written
image. -/
structure TransferEnv where
  sigDownload : Option (List Nat)
  updatePart : Option AppPart
  otaOk : Bool
  imageLen : Option Nat
  slotDigest : Nat → List Nat
  newImageVersion : Option String

/-- Result of one embedded run: error code, final state, event trace. -/
structure RunOut where
  err : EspErr
  state : SysState
  events : List Ev
deriving DecidableEq, Repr

/-- The 4-byte big-endian image length in bytes 48..51 of the signature
record: `(sig[48] << 24) | (sig[49] << 16) | (sig[50] << 8) | sig[51]`. -/
def be32len (sig : List Nat) : Nat :=
  sig.getD 48 0 * 2 ^ 24 + sig.getD 49 0 * 2 ^ 16 + sig.getD 50 0 * 2 ^ 8 +
    sig.getD 51 0

/-- Mirrors `github_update_from_urls` (lines 583-709): download the 52-byte
signature record, reject any other byte count, stream the image into the
next update slot via the one-shot `esp_https_ota` — whose success has, as a
side effect, already pointed the boot pointer at the newly written slot —
then read back the slot metadata, compare the record's embedded length
against the metadata length, compare the SHA-384 digest, and only then
persist the InstalledFirmwareRecord, clear the UpdateRequestFlag and
restart.  This function itself never touches the boot pointer again: a
verification failure after a successful stream returns with the boot
pointer still aimed at the unverified slot.  `Ev.cmpLen` / `Ev.cmpDigest`
are emitted when the respective comparison is evaluated.  LED control is
omitted (pure indication). -/
def github_update_from_urls (env : TransferEnv) (release_version : Option String)
    (s : SysState) : RunOut :=
  match env.sigDownload with
  | none => ⟨.fail, s, []⟩
  | some sig =>
    if sig.length ≠ 52 then ⟨.fail, s, []⟩
    else
      match env.updatePart with
      | none => ⟨.fail, s, []⟩
      | some upart =>
        if env.otaOk = false then ⟨.fail, s, []⟩
        else
          let sOta : SysState := { s with bootPointer := some upart.address }
          match env.imageLen with
          | none => ⟨.fail, sOta, [Ev.bootSet upart.address]⟩
          | some metaLen =>
            let expected_hash := sig.take 48
            let expected_len := be32len sig
            if expected_len ≠ metaLen then
              ⟨.fail, sOta, [Ev.bootSet upart.address, Ev.cmpLen]⟩
            else
              let actual := env.slotDigest metaLen
              if actual ≠ expected_hash then
                ⟨.fail, sOta,
                  [Ev.bootSet upart.address, Ev.cmpLen, Ev.cmpDigest]⟩
              else
                let version_to_store : Option String :=
                  match release_version with
                  | some rv =>
                    if rv ≠ "" then some rv
                    else
                      match env.newImageVersion with
                      | some nv => if nv ≠ "" then some nv else none
                      | none => none
                  | none =>
                    match env.newImageVersion with
                    | some nv => if nv ≠ "" then some nv else none
                    | none => none
                let afterStore : SysState × List Ev :=
                  match version_to_store with
                  | some v =>
                    let r := store_installed_version_if_needed (some v)
                        (some upart.label) sOta.nvs
                    ({ sOta with nvs := r.2.1 }, r.2.2)
                  | none => (sOta, [])
                let s1 := afterStore.1
                let e1 := afterStore.2
                let rFlag := write_update_request_flag false s1.nvs
                ⟨.ok, { s1 with nvs := rFlag.2.1 },
                  [Ev.bootSet upart.address, Ev.cmpLen, Ev.cmpDigest] ++ e1 ++
                    rFlag.2.2 ++ [Ev.restart]⟩

/-! ### Update check (`github_update_if_needed`, lines 711-939)

The HTTP fetch and JSON parsing of the release feed (lines 754-857) belong
to the external release-feed collaborator; the embedding starts from the
selected release (its `tag_name` and asset list) and mirrors the decision
logic of lines 719-753 and 858-938. -/

/-- Environment of one update check: the selected release's `tag_name`
(`none` models a missing or non-string tag), its asset list as
(name, browser_download_url) pairs, the running image's descriptor version
(`esp_app_get_description()`), and the transfer collaborators used if a
transfer is started. -/
structure CheckEnv where
  rawTag : Option String
  assets : List (String × String)
  runningVersion : Option String
  transfer : TransferEnv

/-- Asset scan of lines 920-928: the last asset named `main.bin` and the
last named `main.bin.sig` win. -/
def scanAssets : List (String × String) → Option String × Option String →
    Option String × Option String
  | [], acc => acc
  | (n, u) :: rest, (fw, sg) =>
    if n = "main.bin" then scanAssets rest (some u, sg)
    else if n = "main.bin.sig" then scanAssets rest (fw, some u)
    else scanAssets rest (fw, sg)

/-- `snprintf(buf, n, "%d.%d.%d", maj, min, pat)`. -/
def formatTriple (t : VersionTriple) : String :=
  toString t.maj ++ "." ++ toString t.mnr ++ "." ++ toString t.pat

/-- The current-version baseline of lines 724-750: the stored installed
version when it parses, otherwise the running descriptor version. -/
def currentTriple (env : CheckEnv) (s : SysState) : VersionTriple :=
  let parsedStored := parse_version s.nvs.installed_ver
  if parsedStored.valid then parsedStored else parse_version env.runningVersion

/-- Mirrors the decision logic of `github_update_if_needed` from the point
where a release has been selected (lines 719-753 and 858-938).  On the
already-up-to-date path it refreshes the stored version, and when the
UpdateRequestFlag is set it re-points the boot pointer at the installed
firmware, clearing the flag and restarting only when the pointer actually
changed.  Otherwise it scans the assets and runs the transfer pipeline.
`Ev.upToDate` marks entry into the up-to-date branch and
`Ev.transferStart` the invocation of `github_update_from_urls`. -/
def github_update_check_core (env : CheckEnv) (s : SysState) : RunOut :=
  let update_requested := read_update_request_flag s.nvs
  let cur := currentTriple env s
  let rel := parse_version env.rawTag
  let sanitized : String := if rel.valid then formatTriple rel else ""
  if rel.valid ∧ cur.valid ∧
      cmp_version rel.maj rel.mnr rel.pat cur.maj cur.mnr cur.pat ≤ 0 then
    let version_to_store : Option String :=
      if sanitized ≠ "" then some sanitized else env.rawTag
    let afterStore : SysState × List Ev :=
      match version_to_store with
      | some v =>
        if v ≠ "" then
          let r := store_installed_version_if_needed (some v) none s.nvs
          ({ s with nvs := r.2.1 }, r.2.2)
        else (s, [])
      | none => (s, [])
    let s1 := afterStore.1
    let e1 := afterStore.2
    if update_requested then
      if cur.valid then
        let rBoot := set_boot_partition_for_installed_firmware cur.maj cur.mnr
            cur.pat s1
        let bootErr := rBoot.1
        let changed := rBoot.2.1
        let s2 := rBoot.2.2.1
        let e2 := rBoot.2.2.2
        if bootErr = .ok ∧ changed then
          let rFlag := write_update_request_flag false s2.nvs
          ⟨.ok, { s2 with nvs := rFlag.2.1 },
            [Ev.upToDate] ++ e1 ++ e2 ++ rFlag.2.2 ++ [Ev.restart]⟩
        else ⟨.ok, s2, [Ev.upToDate] ++ e1 ++ e2⟩
      else ⟨.ok, s1, [Ev.upToDate] ++ e1⟩
    else ⟨.ok, s1, [Ev.upToDate] ++ e1⟩
  else
    let fwsg := scanAssets env.assets (none, none)
    match fwsg.1, fwsg.2 with
    | some _, some _ =>
      let version_argument : Option String :=
        if sanitized ≠ "" then some sanitized
        else
          match env.rawTag with
          | some v => if v ≠ "" then some v else none
          | none => none
      let out := github_update_from_urls env.transfer version_argument s
      ⟨out.err, out.state, [Ev.transferStart] ++ out.events⟩
    | _, _ => ⟨.fail, s, []⟩

/-! ### Factory-reset orchestrator (src/unnamed/part_006)

Flash partitions (APP and DATA) carry their byte contents so that the
read-back verification `verify_partition_erased` is a real check.  Erasure
outcomes come from an environment oracle: `none` models a failing
`esp_partition_erase_range`, `some c` the contents the flash holds
afterwards (all `0xFF` when the hardware behaved). -/

/-- One partition of the full table used by the factory-reset code. -/
structure BPart where
  label : String
  isApp : Bool
  subtype : Nat
  address : Nat
  contents : List Nat
deriving DecidableEq, Repr

/-- State of the factory-reset orchestrator:
`pendingSub` is the RTC-resident `factory_reset_pending_ota_subtype`
(-1 = no deferred erase), `verifPending` the RTC flag
`factory_reset_verification_pending`. -/
structure BState where
  parts : List BPart
  pendingSub : Int
  verifPending : Bool
deriving DecidableEq, Repr

/-- Trace events of the erasure sequence. -/
inductive REv where
  | wifiRestore (ok : Bool)
  | kvErase (ok : Bool)
  | kvInit
  | erase (addr : Nat) (ok : Bool)
  | verify (addr : Nat) (ok : Bool)
  | deferErase (addr : Nat)
  | postpone
  | reboot
deriving DecidableEq, Repr

/-- Environment of one erasure run: result of `esp_wifi_restore`, of
`nvs_flash_erase`, the per-partition erase oracle (keyed by partition
address) and the currently running partition
(`esp_ota_get_running_partition`). -/
structure ResetEnv where
  wifiOk : Bool
  kvEraseOk : Bool
  eraseResult : Nat → Option (List Nat)
  running : Option BPart

/-- Replaces the contents of the partition at `addr`. -/
def setContents (parts : List BPart) (addr : Nat) (c : List Nat) : List BPart :=
  parts.map (fun q => if q.address = addr then { q with contents := c } else q)

/-- Offset of the first byte that does not read back as the flash-erased
value `0xFF` (the `first_bad_offset` scan of `verify_partition_erased`,
part_006 lines 330-383). -/
def firstNonFF : List Nat → Option Nat
  | [] => none
  | b :: rest =>
    if b ≠ 255 then some 0
    else
      match firstNonFF rest with
      | some i => some (i + 1)
      | none => none

/-- Mirrors `verify_partition_erased`: true exactly when every byte of the
partition reads back as `0xFF` (partition reads are modelled as reliable). -/
def verify_partition_erased (p : BPart) : Bool :=
  (firstNonFF p.contents).isNone

/-- `ESP_PARTITION_SUBTYPE_DATA_OTA` (0), the boot-pointer (otadata)
region's subtype. -/
def DATA_OTA : Nat := 0

/-- `esp_partition_find_first(ESP_PARTITION_TYPE_DATA,
ESP_PARTITION_SUBTYPE_DATA_OTA, NULL)`. -/
def findOtadata (parts : List BPart) : Option BPart :=
  parts.find? (fun p => p.isApp = false ∧ p.subtype = DATA_OTA)

/-- Mirrors `erase_otadata_partition` (part_006 lines 311-328): erase the
boot-pointer region and read-verify it; a missing partition or a failed
erase is logged and the function returns without verification. -/
def erase_otadata_partition (env : ResetEnv) (st : BState) :
    BState × List REv :=
  match findOtadata st.parts with
  | none => (st, [])
  | some p =>
    match env.eraseResult p.address with
    | none => (st, [REv.erase p.address false])
    | some c =>
      ({ st with parts := setContents st.parts p.address c },
        [REv.erase p.address true,
         REv.verify p.address (verify_partition_erased { p with contents := c })])

/-- Loop body of `erase_ota_app_partitions` (lines 397-429) over the
remaining partition iterator: OTA-range app partitions are erased and
read-verified, except the currently running one, which is recorded in
`pendingSub` and deferred. -/
def eraseAppAux (env : ResetEnv) (runningIsOta : Bool) (raddr : Nat) :
    List BPart → BState → BState × List REv
  | [], st => (st, [])
  | p :: rest, st =>
    if p.isApp ∧ OTA_MIN ≤ p.subtype ∧ p.subtype ≤ OTA_MAX then
      if runningIsOta ∧ p.address = raddr then
        let st1 := { st with pendingSub := (p.subtype : Int) }
        let r := eraseAppAux env runningIsOta raddr rest st1
        (r.1, REv.deferErase p.address :: r.2)
      else
        match env.eraseResult p.address with
        | none =>
          let r := eraseAppAux env runningIsOta raddr rest st
          (r.1, REv.erase p.address false :: r.2)
        | some c =>
          let st1 := { st with parts := setContents st.parts p.address c }
          let r := eraseAppAux env runningIsOta raddr rest st1
          (r.1, REv.erase p.address true ::
            REv.verify p.address (verify_partition_erased { p with contents := c }) :: r.2)
    else
      eraseAppAux env runningIsOta raddr rest st

/-- Mirrors `erase_ota_app_partitions` (lines 385-430): clears the deferred
marker when the running partition is not an OTA slot, then walks the APP
partition table. -/
def erase_ota_app_partitions (env : ResetEnv) (st : BState) :
    BState × List REv :=
  let runningIsOta :=
    match env.running with
    | some r => decide (OTA_MIN ≤ r.subtype ∧ r.subtype ≤ OTA_MAX)
    | none => false
  let raddr :=
    match env.running with
    | some r => r.address
    | none => 0
  let st0 := if runningIsOta = false then { st with pendingSub := -1 } else st
  eraseAppAux env runningIsOta raddr st0.parts st0

/-- Mirrors `factory_reset_task` (lines 528-552): restore the WiFi
configuration, erase the NVS key-value region (`clear_nvs_storage`, lines
290-307, which re-initialises NVS immediately after erasing and performs no
read-back verification), erase and verify the boot-pointer region, then
erase and verify every OTA app slot except the running one, and reboot with
the post-reset verification flag armed. -/
def factory_reset_task (env : ResetEnv) (st : BState) : BState × List REv :=
  let r1 := erase_otadata_partition env st
  let r2 := erase_ota_app_partitions env r1.1
  ({ r2.1 with verifPending := true },
    [REv.wifiRestore env.wifiOk, REv.kvErase env.kvEraseOk, REv.kvInit] ++
      r1.2 ++ r2.2 ++ [REv.reboot])

/-- Mirrors `finalize_deferred_factory_reset` (lines 432-468), run at the
start of every boot: nothing to do without a pending OTA-range marker; if
the device still runs from the marked subtype the erase is postponed; if the
marked subtype no longer matches any partition the marker is dropped; a
failing erase leaves the marker pending for the next boot; a successful
erase is read-verified and the marker cleared. -/
def finalize_deferred_factory_reset (env : ResetEnv) (st : BState) :
    BState × List REv :=
  let subtype := st.pendingSub
  if subtype < (OTA_MIN : Int) ∨ subtype > (OTA_MAX : Int) then (st, [])
  else
    let stillRunning :=
      match env.running with
      | some r => decide ((r.subtype : Int) = subtype)
      | none => false
    if stillRunning then (st, [REv.postpone])
    else
      match st.parts.find? (fun p => p.isApp ∧ (p.subtype : Int) = subtype) with
      | none => ({ st with pendingSub := -1 }, [])
      | some p =>
        match env.eraseResult p.address with
        | none => (st, [REv.erase p.address false])
        | some c =>
          ({ st with parts := setContents st.parts p.address c, pendingSub := -1 },
            [REv.erase p.address true,
             REv.verify p.address (verify_partition_erased { p with contents := c })])

/-! ### Restart counter (part_006 lines 242-288) -/

/-- `RESTART_COUNTER_THRESHOLD_MIN` (part_006 line 49). -/
def THRESHOLD_MIN : Nat := 10

/-- `RESTART_COUNTER_THRESHOLD_MAX` (part_006 line 50). -/
def THRESHOLD_MAX : Nat := 12

/-- `UINT32_MAX`. -/
def UINT32_MAX : Nat := 2 ^ 32 - 1

/-- Reset reasons distinguished by `handle_power_cycle_sequence`. -/
inductive ResetReason where
  | poweron
  | ext
  | sw
  | panic
  | wdt
  | deepsleep
  | other
deriving DecidableEq, Repr

/-- Outcome of one boot's `handle_power_cycle_sequence` run on the persisted
counter: `storedImmediate` is the value written before any countdown (line
259), `finalStored` the persisted value once the handler has completed,
`countdownStarted` whether the visible countdown ran, `factoryReset` whether
the erasure sequence was triggered and `timerArmed` whether the 5-second
stable-window timer was armed. -/
structure CycleOutcome where
  storedImmediate : Nat
  finalStored : Nat
  countdownStarted : Bool
  factoryReset : Bool
  timerArmed : Bool
deriving DecidableEq, Repr

/-- Mirrors `handle_power_cycle_sequence` (lines 242-288), acting on the
persisted counter value `stored`: a non-qualifying reset reason clears a
non-zero counter; a qualifying one increments it (with the explicit
`UINT32_MAX` wrap guard) and stores it; a count above `THRESHOLD_MAX` is
treated as noise and reset to zero; a count reaching `THRESHOLD_MIN` runs
the countdown, clears the counter and triggers the factory reset; otherwise
the stable-window timer is armed. -/
def handle_power_cycle_sequence (reason : ResetReason) (stored : Nat) :
    CycleOutcome :=
  if reason ≠ ResetReason.poweron ∧ reason ≠ ResetReason.ext then
    if stored ≠ 0 then ⟨stored, 0, false, false, false⟩
    else ⟨stored, stored, false, false, false⟩
  else
    let c0 := if stored ≥ UINT32_MAX then 0 else stored
    let count := c0 + 1
    if count > THRESHOLD_MAX then ⟨count, 0, false, false, true⟩
    else if count ≥ THRESHOLD_MIN then ⟨count, 0, true, true, false⟩
    else ⟨count, count, false, false, true⟩

/-- Persisted counter value observed by the next boot when qualifying resets
arrive in rapid succession (each within the restart window, hence before the
stable-window timer fires and — when a countdown is running — before it
completes): the immediately stored value if a countdown was started, else
the handler's final value. -/
def qualifyingStep (c : Nat) : Nat :=
  let o := handle_power_cycle_sequence ResetReason.poweron c
  if o.countdownStarted then o.storedImmediate else o.finalStored

/-- Persisted counter after `n` consecutive qualifying resets within the
window, starting from a cleared counter. -/
def persistedAfter : Nat → Nat
  | 0 => 0
  | n + 1 => qualifyingStep (persistedAfter n)

/-! ## Theorems -/

/-! ### Claim C8 — `parse_version` -/

theorem isCSpace_eq_false_of_isDigit (c : Char) (h : c.isDigit = true) :
    isCSpace c = false := by
  simp only [isCSpace, Bool.or_eq_false_iff, beq_eq_false_iff_ne, ne_eq]
  refine ⟨⟨⟨⟨⟨?_, ?_⟩, ?_⟩, ?_⟩, ?_⟩, ?_⟩ <;>
    rintro rfl <;> exact absurd h (by decide)

theorem skipWs_cons_digit (c : Char) (t : List Char) (h : c.isDigit = true) :
    skipWs (c :: t) = c :: t := by
  simp [skipWs, isCSpace_eq_false_of_isDigit c h]

theorem scanInt_of_takeDigits (cs ds r : List Char)
    (h : takeDigits cs = (ds, r)) (hne : ds ≠ []) :
    scanInt cs = some ((digitsVal ds : Int), r) := by
  cases cs with
  | nil =>
    simp only [takeDigits, Prod.mk.injEq] at h
    exact absurd h.1.symm hne
  | cons c t =>
    by_cases hd : c.isDigit
    · have hm : c ≠ '-' := by rintro rfl; exact absurd hd (by decide)
      have hp : c ≠ '+' := by rintro rfl; exact absurd hd (by decide)
      have hne2 : (takeDigits (c :: t)).1.isEmpty = false := by
        rw [h]
        cases ds with
        | nil => exact absurd rfl hne
        | cons d ds2 => simp
      simp [scanInt, skipWs_cons_digit c t hd, hm, hp, hne2, h]
      exact hne
    · have hd2 : c.isDigit = false := by simpa using hd
      simp [takeDigits, hd2] at h
      exact absurd h.1 hne

theorem parse_version_valid_of_spec (s : String)
    (h : specThreeDotUints s = true) : (parse_version (some s)).valid = true := by
  simp only [specThreeDotUints, String.toList] at h
  rcases h1 : takeDigits (stripV s.data) with ⟨g1, r1⟩
  rw [h1] at h
  dsimp only at h
  cases g1 with
  | nil => simp at h
  | cons d1 g1t =>
    simp only [List.isEmpty_cons, if_false, Bool.false_eq_true] at h
    cases r1 with
    | nil => simp at h
    | cons c1 r2 =>
      dsimp only at h
      by_cases hdot1 : c1 = '.'
      · rw [if_pos hdot1] at h
        rcases h2 : takeDigits r2 with ⟨g2, r3⟩
        rw [h2] at h
        dsimp only at h
        cases g2 with
        | nil => simp at h
        | cons d2 g2t =>
          simp only [List.isEmpty_cons, if_false, Bool.false_eq_true] at h
          cases r3 with
          | nil => simp at h
          | cons c2 r4 =>
            dsimp only at h
            by_cases hdot2 : c2 = '.'
            · rw [if_pos hdot2] at h
              rcases h3 : takeDigits r4 with ⟨g3, r5⟩
              rw [h3] at h
              dsimp only at h
              cases g3 with
              | nil => simp at h
              | cons d3 g3t =>
                have s1 := scanInt_of_takeDigits _ _ _ h1 (by simp)
                have s2 := scanInt_of_takeDigits _ _ _ h2 (by simp)
                have s3 := scanInt_of_takeDigits _ _ _ h3 (by simp)
                simp [parse_version, scanTriple, String.toList, s1, s2, s3,
                  hdot1, hdot2]
            · rw [if_neg hdot2] at h; simp at h
      · rw [if_neg hdot1] at h; simp at h

/-- Claim C8, counterexample: the code accepts `"1.2.3x"` (trailing bytes are
ignored by `sscanf`), although that string does not consist of three
dot-separated unsigned integers, so "valid exactly when the input consists of
three dot-separated unsigned integers" fails. -/
theorem c8_counterexample :
    (parse_version (some "1.2.3x")).valid = true ∧
      specThreeDotUints "1.2.3x" = false := by
  constructor <;> decide

/-- Claim C8 (amended): `parse_version` is total (a Lean function; NULL is
the `none` case), strips one leading `v`/`V`, accepts every string that
consists of three dot-separated unsigned integers — but also any string that
merely begins with an `sscanf`-matching `%d.%d.%d` pattern — and on any
parse failure returns `valid=false` with all three fields zero;
`parse_version "v1.2.3" = (1,2,3,valid)` and
`parse_version "garbage" = (0,0,0,invalid)`. -/
theorem c8_parse_version_amended :
    (∀ s : String, specThreeDotUints s = true →
      (parse_version (some s)).valid = true) ∧
    (∀ os : Option String, (parse_version os).valid = false →
      parse_version os = invalidTriple) ∧
    parse_version none = invalidTriple ∧
    parse_version (some "v1.2.3") = ⟨1, 2, 3, true⟩ ∧
    parse_version (some "garbage") = invalidTriple := by
  refine ⟨parse_version_valid_of_spec, ?_, by decide, by decide, by decide⟩
  intro os h
  match os with
  | none => rfl
  | some s =>
    simp only [parse_version, String.toList] at h ⊢
    rcases hq : scanTriple (stripV s.data) with _ | ⟨⟨a, b, c⟩⟩
    · rfl
    · rw [hq] at h
      exact Bool.noConfusion h

/-- Claim C8, witness for the amended theorem at concrete inputs. -/
theorem c8_parse_version_amended_witness :
    (parse_version (some "10.20.30")).valid = true ∧
      parse_version (some "1.2") = invalidTriple :=
  ⟨c8_parse_version_amended.1 "10.20.30" (by decide),
   c8_parse_version_amended.2.1 (some "1.2") (by decide)⟩

/-! ### Concrete fixtures used by witnesses and counterexamples -/

/-- An OTA slot holding firmware 1.0.0. -/
def partOta0 : AppPart := ⟨"ota_0", 16, 100, some "1.0.0"⟩

/-- A second OTA slot holding firmware 1.2.0. -/
def partOta1 : AppPart := ⟨"ota_1", 17, 200, some "1.2.0"⟩

/-- NVS contents with firmware 1.0.0 recorded on `ota_0` and the update
request flag set. -/
def nvsBase : NVSState := ⟨some "1.0.0", some "ota_0", some 1⟩

/-- System state whose boot pointer already selects `ota_0`. -/
def sysBase : SysState := ⟨nvsBase, some 100, [partOta0, partOta1]⟩

/-- A well-formed signature record: 48 digest bytes `7` and big-endian
length 4. -/
def sigGood : List Nat := List.replicate 48 7 ++ [0, 0, 0, 4]

/-- Transfer collaborators that would let a transfer verify: the record
`sigGood` arrives, the slot metadata reports 4 bytes and the slot digest is
the 48 bytes `7`. -/
def tenvGood : TransferEnv :=
  ⟨some sigGood, some partOta1, true, some 4, fun _ => List.replicate 48 7,
    some "1.2.0"⟩

/-! ### Claim C9 — `set_boot_slot` idempotence -/

/-- Claim C9: when the resolved target partition's address already equals the
boot pointer, `set_boot_partition_for_installed_firmware` returns success
with `partition_changed = false`, mutates nothing and emits no event. -/
theorem c9_set_boot_slot_idempotent (maj mnr pat : Int) (s : SysState)
    (t : AppPart) (hres : resolveBootTarget maj mnr pat s = some t)
    (hboot : s.bootPointer = some t.address) :
    set_boot_partition_for_installed_firmware maj mnr pat s =
      (.ok, false, s, []) := by
  simp [set_boot_partition_for_installed_firmware, hres, hboot]

/-- Claim C9, witness: the fixture state already boots `ota_0`. -/
theorem c9_set_boot_slot_idempotent_witness :
    resolveBootTarget 1 0 0 sysBase = some partOta0 ∧
      sysBase.bootPointer = some partOta0.address ∧
      set_boot_partition_for_installed_firmware 1 0 0 sysBase =
        (.ok, false, sysBase, []) :=
  ⟨by decide, by decide,
    c9_set_boot_slot_idempotent 1 0 0 sysBase partOta0 (by decide) (by decide)⟩

/-! ### Claims C1 and C2 — transfer verification -/

theorem from_urls_err_or (env : TransferEnv) (rv : Option String)
    (s : SysState) :
    (github_update_from_urls env rv s).err = .ok ∨
      ((github_update_from_urls env rv s).err = .fail ∧
        (github_update_from_urls env rv s).state.nvs = s.nvs) := by
  unfold github_update_from_urls
  cases hsd : env.sigDownload with
  | none => exact Or.inr ⟨rfl, rfl⟩
  | some sig =>
    by_cases hl : sig.length = 52
    · simp only [hl, ne_eq, not_true_eq_false, if_false]
      cases hup : env.updatePart with
      | none => exact Or.inr ⟨rfl, rfl⟩
      | some p =>
        cases hok : env.otaOk with
        | false => exact Or.inr ⟨rfl, rfl⟩
        | true =>
          simp only [Bool.true_eq_false, if_false]
          cases hil : env.imageLen with
          | none => exact Or.inr ⟨rfl, rfl⟩
          | some mlen =>
            by_cases hlen : be32len sig = mlen
            · simp only [hlen, ne_eq, not_true_eq_false, if_false]
              by_cases hdg : env.slotDigest mlen = sig.take 48
              · simp [hdg]
              · simp [hdg]
            · simp [hlen]
    · simp [hl]

/-- Claim C1: the claim is right and the code is wrong.  The spec requires
that on a verification failure the newly written slot is never made
bootable, but the one-shot `esp_https_ota` call already switched the boot
pointer to the update slot when the stream succeeded (via
`esp_https_ota_finish` / `esp_ota_set_boot_partition`), BEFORE the
length/digest checks of `github_update_from_urls` run.  At the concrete
failing input — a digest mismatch over an otherwise successful transfer —
the run fails as required and the InstalledFirmwareRecord is indeed
unchanged, but the boot pointer has moved from `ota_0` (address 100) to the
unverified slot `ota_1` (address 200). -/
theorem c1_verification_failure_boot_moved :
    (github_update_from_urls
        { tenvGood with slotDigest := fun _ => List.replicate 48 9 }
        (some "1.2.0") sysBase).err ≠ .ok ∧
      sysBase.bootPointer = some partOta0.address ∧
      (github_update_from_urls
        { tenvGood with slotDigest := fun _ => List.replicate 48 9 }
        (some "1.2.0") sysBase).state.bootPointer = some partOta1.address ∧
      (github_update_from_urls
        { tenvGood with slotDigest := fun _ => List.replicate 48 9 }
        (some "1.2.0") sysBase).state.bootPointer ≠ sysBase.bootPointer ∧
      (github_update_from_urls
        { tenvGood with slotDigest := fun _ => List.replicate 48 9 }
        (some "1.2.0") sysBase).state.nvs.installed_ver =
        sysBase.nvs.installed_ver ∧
      (github_update_from_urls
        { tenvGood with slotDigest := fun _ => List.replicate 48 9 }
        (some "1.2.0") sysBase).state.nvs.installed_part =
        sysBase.nvs.installed_part := by
  decide

/-- Claim C2: with the signature downloaded and the streaming, slot and
metadata collaborators succeeding, the transfer is accepted exactly when the
record is exactly 52 bytes, its big-endian embedded length equals the
slot-metadata image length, and the SHA-384 digest over that expected-length
prefix of the slot equals the record's first 48 bytes; moreover a record of
any other byte count is rejected before either comparison is attempted (no
comparison event is emitted). -/
theorem c2_signature_acceptance (env : TransferEnv) (rv : Option String)
    (s : SysState) (sig : List Nat) (p : AppPart) (mlen : Nat)
    (hsig : env.sigDownload = some sig) (hpart : env.updatePart = some p)
    (hota : env.otaOk = true) (hmeta : env.imageLen = some mlen) :
    ((github_update_from_urls env rv s).err = .ok ↔
      (sig.length = 52 ∧ be32len sig = mlen ∧
        env.slotDigest (be32len sig) = sig.take 48)) ∧
    (sig.length ≠ 52 →
      (github_update_from_urls env rv s).err = .fail ∧
        (github_update_from_urls env rv s).events = []) := by
  unfold github_update_from_urls
  rw [hsig, hpart, hota, hmeta]
  by_cases hl : sig.length = 52
  · simp only [hl, ne_eq, not_true_eq_false, if_false, Bool.true_eq_false]
    by_cases hlen : be32len sig = mlen
    · simp only [hlen, ne_eq, not_true_eq_false, if_false]
      by_cases hdg : env.slotDigest mlen = sig.take 48
      · simp [hdg, hlen]
      · simp [hdg, hlen]
    · simp only [ne_eq, hlen, not_false_eq_true, if_true]
      simp [hlen]
  · simp only [ne_eq, hl, not_false_eq_true, if_true]
    simp [hl]

/-- Claim C2, witness: the fixture transfer environment is accepted, and the
same record truncated to 51 bytes is rejected with no comparison
attempted. -/
theorem c2_signature_acceptance_witness :
    (github_update_from_urls tenvGood (some "1.2.0") sysBase).err = .ok ∧
      (github_update_from_urls { tenvGood with
          sigDownload := some (List.replicate 51 7) }
        (some "1.2.0") sysBase).events = [] := by
  constructor
  · exact ((c2_signature_acceptance tenvGood (some "1.2.0") sysBase sigGood
      partOta1 4 (by rfl) (by rfl) (by rfl) (by rfl)).1).mpr (by decide)
  · exact ((c2_signature_acceptance { tenvGood with
        sigDownload := some (List.replicate 51 7) }
      (some "1.2.0") sysBase (List.replicate 51 7)
      partOta1 4 (by rfl) (by rfl) (by rfl) (by rfl)).2 (by decide)).2

/-! ### Claims C6, C7, C10 — update-check decision logic -/

/-- Events that only touch NVS (no boot-pointer write, no restart). -/
@[simp] def isNvsEv : Ev → Bool
  | .setVer _ => true
  | .setLabel _ => true
  | .setFlag _ => true
  | .commit => true
  | _ => false

theorem storeVerStep_frame (t : String) (s : NVSState) :
    (storeVerStep t s).2.1.installed_part = s.installed_part ∧
      (storeVerStep t s).2.1.do_update = s.do_update ∧
      ((storeVerStep t s).2.2 = [] ∨
        (storeVerStep t s).2.2 = [Ev.setVer t]) := by
  unfold storeVerStep
  cases s.installed_ver with
  | none => simp
  | some ex => by_cases he : ex = t <;> simp [he]

theorem storeLabelStep_frame (plabel : Option String) (s : NVSState) :
    (storeLabelStep plabel s).2.1.installed_ver = s.installed_ver ∧
      (storeLabelStep plabel s).2.1.do_update = s.do_update ∧
      ((storeLabelStep plabel s).2.2 = [] ∨
        ∃ l, (storeLabelStep plabel s).2.2 = [Ev.setLabel l]) := by
  unfold storeLabelStep
  cases plabel with
  | none => simp
  | some l =>
    by_cases hl : l = ""
    · simp [hl]
    · simp only [hl, ne_eq, not_false_eq_true, if_true]
      cases s.installed_part with
      | none => simp
      | some ex => by_cases he : ex = l <;> simp [he]

theorem store_events_nvs_all (v plabel : Option String) (nvs : NVSState) :
    ((store_installed_version_if_needed v plabel nvs).2.2).all isNvsEv =
      true := by
  unfold store_installed_version_if_needed
  cases v with
  | none => simp
  | some vv =>
    by_cases hv : vv = ""
    · simp [hv]
    · simp only [hv, if_false]
      obtain ⟨-, -, hev1⟩ := storeVerStep_frame (strTrunc31 vv) nvs
      obtain ⟨-, -, hev2⟩ := storeLabelStep_frame plabel
        ((storeVerStep (strTrunc31 vv) nvs).2.1)
      split_ifs <;>
        rcases hev1 with h1 | h1 <;> rcases hev2 with h2 | ⟨l2, h2⟩ <;>
          simp [h1, h2]

theorem store_events_nvs (v plabel : Option String) (nvs : NVSState) :
    ∀ e ∈ (store_installed_version_if_needed v plabel nvs).2.2,
      isNvsEv e = true := by
  have h := store_events_nvs_all v plabel nvs
  rw [List.all_eq_true] at h
  exact h

theorem store_preserves_part_flag (v : Option String) (nvs : NVSState) :
    ((store_installed_version_if_needed v none nvs).2.1).installed_part =
        nvs.installed_part ∧
      ((store_installed_version_if_needed v none nvs).2.1).do_update =
        nvs.do_update := by
  unfold store_installed_version_if_needed
  cases v with
  | none => exact ⟨rfl, rfl⟩
  | some vv =>
    by_cases hv : vv = ""
    · simp [hv]
    · simp only [hv, if_false]
      obtain ⟨hp1, hd1, -⟩ := storeVerStep_frame (strTrunc31 vv) nvs
      have hlab : storeLabelStep none
          ((storeVerStep (strTrunc31 vv) nvs).2.1) =
          (false, (storeVerStep (strTrunc31 vv) nvs).2.1, []) := rfl
      split_ifs <;> simp [hlab, hp1, hd1]

theorem resolveBootTarget_congr (m n p : Int) (s s2 : SysState)
    (h1 : s2.nvs.installed_part = s.nvs.installed_part)
    (h2 : s2.parts = s.parts) :
    resolveBootTarget m n p s2 = resolveBootTarget m n p s := by
  simp [resolveBootTarget, h1, h2]

theorem formatTriple_ne_empty (t : VersionTriple) : formatTriple t ≠ "" := by
  intro h
  have hlen := congrArg String.length h
  simp [formatTriple, String.length_append] at hlen
  exact absurd hlen.1.1.1.2 (by decide)

/-- Check-core environment whose release equals the installed version. -/
def envC6 : CheckEnv := ⟨some "v1.0.0", [], some "1.0.0", tenvGood⟩

/-- Claim C6, counterexample: with the UpdateRequestFlag set and the boot
pointer already selecting the slot that holds the installed version, the
already-up-to-date path leaves the boot pointer untouched and does not
reboot, but the flag is NOT cleared (it remains set), contradicting "the
UpdateRequestFlag is still cleared". -/
theorem c6_counterexample :
    read_update_request_flag sysBase.nvs = true ∧
      (github_update_check_core envC6 sysBase).state.bootPointer =
        sysBase.bootPointer ∧
      Ev.restart ∉ (github_update_check_core envC6 sysBase).events ∧
      (github_update_check_core envC6 sysBase).state.nvs.do_update = some 1 := by
  decide

/-- Claim C6 (amended): on the already-up-to-date path with the
UpdateRequestFlag set and a valid installed version, if the boot pointer
already points at the slot holding the installed version it is left
untouched (no boot-pointer write, no reboot) and the flag is LEFT SET (the
code clears it only when the pointer actually changed); if the boot pointer
had to change, it is changed, the flag is cleared and the device restarts. -/
theorem c6_uptodate_request_behavior (env : CheckEnv) (s : SysState)
    (t : AppPart)
    (hrel : (parse_version env.rawTag).valid = true)
    (hcur : (currentTriple env s).valid = true)
    (hcmp : cmp_version (parse_version env.rawTag).maj
      (parse_version env.rawTag).mnr (parse_version env.rawTag).pat
      (currentTriple env s).maj (currentTriple env s).mnr
      (currentTriple env s).pat ≤ 0)
    (hreq : read_update_request_flag s.nvs = true)
    (hres : resolveBootTarget (currentTriple env s).maj
      (currentTriple env s).mnr (currentTriple env s).pat s = some t) :
    (s.bootPointer = some t.address →
      (github_update_check_core env s).state.bootPointer = s.bootPointer ∧
        (github_update_check_core env s).state.nvs.do_update =
          s.nvs.do_update ∧
        Ev.restart ∉ (github_update_check_core env s).events ∧
        (∀ a, Ev.bootSet a ∉ (github_update_check_core env s).events)) ∧
    (∀ a, s.bootPointer = some a → a ≠ t.address →
      (github_update_check_core env s).state.bootPointer = some t.address ∧
        read_update_request_flag
          (github_update_check_core env s).state.nvs = false ∧
        Ev.restart ∈ (github_update_check_core env s).events) := by
  simp only [github_update_check_core, hrel, hcur, hcmp, hreq, and_self,
    if_true, ne_eq, formatTriple_ne_empty, not_false_eq_true]
  set rStore := store_installed_version_if_needed
    (some (formatTriple (parse_version env.rawTag))) none s.nvs with hrstore
  have hpres := store_preserves_part_flag
    (some (formatTriple (parse_version env.rawTag))) s.nvs
  rw [← hrstore] at hpres
  set s1 : SysState := { s with nvs := rStore.2.1 } with hs1
  have hres1 : resolveBootTarget (currentTriple env s).maj
      (currentTriple env s).mnr (currentTriple env s).pat s1 = some t := by
    rw [resolveBootTarget_congr _ _ _ s s1 hpres.1 rfl]
    exact hres
  have hnvsev := store_events_nvs
    (some (formatTriple (parse_version env.rawTag))) none s.nvs
  rw [← hrstore] at hnvsev
  constructor
  · intro hsame
    have hboot : set_boot_partition_for_installed_firmware
        (currentTriple env s).maj (currentTriple env s).mnr
        (currentTriple env s).pat s1 = (.ok, false, s1, []) := by
      simp [set_boot_partition_for_installed_firmware, hres1, hsame]
    rw [hboot, if_neg (by simp : ¬(EspErr.ok = EspErr.ok ∧ false = true))]
    refine ⟨rfl, hpres.2, ?_, ?_⟩
    · intro hmem
      simp only [List.append_nil, List.cons_append, List.nil_append,
        List.mem_cons] at hmem
      rcases hmem with h | h
      · exact Ev.noConfusion h
      · have := hnvsev _ h
        simp [isNvsEv] at this
    · intro a hmem
      simp only [List.append_nil, List.cons_append, List.nil_append,
        List.mem_cons] at hmem
      rcases hmem with h | h
      · exact Ev.noConfusion h
      · have := hnvsev _ h
        simp [isNvsEv] at this
  · intro a ha hne
    have hboot : set_boot_partition_for_installed_firmware
        (currentTriple env s).maj (currentTriple env s).mnr
        (currentTriple env s).pat s1 =
        (.ok, true, ⟨rStore.2.1, some t.address, s.parts⟩,
          [Ev.bootSet t.address]) := by
      simp [set_boot_partition_for_installed_firmware, hres1, ha, hne]
    rw [hboot, if_pos (by simp : EspErr.ok = EspErr.ok ∧ true = true)]
    dsimp only
    rcases hdo : s.nvs.do_update with _ | v
    · simp [read_update_request_flag, hdo] at hreq
    · have hvne : v ≠ 0 := by
        simpa [read_update_request_flag, hdo] using hreq
      have hflag : rStore.2.1.do_update = some v := by
        rw [hpres.2, hdo]
      have hwf : write_update_request_flag false rStore.2.1 =
          (.ok, { rStore.2.1 with do_update := some 0 },
            [Ev.setFlag 0, Ev.commit]) := by
        simp [write_update_request_flag, hflag, hvne]
      rw [hwf]
      refine ⟨rfl, by simp [read_update_request_flag], ?_⟩
      simp

/-- Claim C6, witness for the amended theorem: with the fixture release equal
to the installed version and the flag set, an already-correct boot pointer
leaves the flag untouched, while a stale boot pointer is moved to `ota_0`. -/
theorem c6_uptodate_request_behavior_witness :
    (github_update_check_core envC6 sysBase).state.nvs.do_update =
        sysBase.nvs.do_update ∧
      (github_update_check_core envC6
        { sysBase with bootPointer := some 50 }).state.bootPointer =
        some partOta0.address := by
  have h1 := c6_uptodate_request_behavior envC6 sysBase partOta0
    (by decide) (by decide) (by decide) (by decide) (by decide)
  have h2 := c6_uptodate_request_behavior envC6
    { sysBase with bootPointer := some 50 } partOta0
    (by decide) (by decide) (by decide) (by decide) (by decide)
  exact ⟨(h1.1 (by decide)).2.1, (h2.2 50 (by decide) (by decide)).1⟩

/-- Check-core environment with an unparsable release tag but both assets
present. -/
def envC7 : CheckEnv :=
  ⟨some "garbage", [("main.bin", "u1"), ("main.bin.sig", "u2")],
    some "1.0.0", tenvGood⟩

/-- Claim C7, counterexample: the selected release's tag fails to parse
(remote `valid=false`), yet the update check does NOT skip the release — it
starts the firmware transfer from it. -/
theorem c7_counterexample :
    (parse_version (some "garbage")).valid = false ∧
      Ev.transferStart ∈ (github_update_check_core envC7 sysBase).events := by
  constructor
  · decide
  · decide

/-- Claim C7 (amended): a release whose tag fails to parse is NOT skipped:
whenever the remote version is invalid — or the local/installed version is
invalid — the already-up-to-date short-circuit cannot be taken, so with both
assets present the update check proceeds to start the firmware transfer (an
invalid version on either side is treated as "assume update needed"). -/
theorem c7_invalid_version_forces_transfer (env : CheckEnv) (s : SysState)
    (fu su : String)
    (hassets : scanAssets env.assets (none, none) = (some fu, some su))
    (hinv : (parse_version env.rawTag).valid = false ∨
      (currentTriple env s).valid = false) :
    Ev.transferStart ∈ (github_update_check_core env s).events := by
  have hcond : ¬((parse_version env.rawTag).valid = true ∧
      (currentTriple env s).valid = true ∧
      cmp_version (parse_version env.rawTag).maj
        (parse_version env.rawTag).mnr (parse_version env.rawTag).pat
        (currentTriple env s).maj (currentTriple env s).mnr
        (currentTriple env s).pat ≤ 0) := by
    rcases hinv with h | h <;> simp [h]
  unfold github_update_check_core
  rw [if_neg hcond, hassets]
  simp

/-- Claim C7, witness for the amended theorem: an invalid remote tag with
both assets present reaches the transfer. -/
theorem c7_invalid_version_forces_transfer_witness :
    Ev.transferStart ∈ (github_update_check_core envC7 sysBase).events :=
  c7_invalid_version_forces_transfer envC7 sysBase "u1" "u2" (by decide)
    (Or.inl (by decide))

/-- A state with no InstalledFirmwareRecord and a cleared flag. -/
def sysNoRecord : SysState := ⟨⟨none, none, none⟩, some 100, [partOta0]⟩

/-- Check-core environment whose release version equals the running
version. -/
def envC10 : CheckEnv := ⟨some "1.0.0", [], some "1.0.0", tenvGood⟩

/-- Claim C10, counterexample: the already-up-to-date path of the update
check also mutates the persisted InstalledFirmwareRecord (here it creates
the version entry), although no transfer ran and no verify-and-commit
happened — the record is not mutated only by the transfer pipeline after a
successful verification. -/
theorem c10_counterexample :
    (github_update_check_core envC10 sysNoRecord).state.nvs.installed_ver ≠
        sysNoRecord.nvs.installed_ver ∧
      Ev.transferStart ∉ (github_update_check_core envC10 sysNoRecord).events ∧
      Ev.cmpDigest ∉ (github_update_check_core envC10 sysNoRecord).events := by
  decide

theorem from_urls_mut_ok (env : TransferEnv) (rv : Option String)
    (s : SysState)
    (hmut : (github_update_from_urls env rv s).state.nvs.installed_ver ≠
        s.nvs.installed_ver ∨
      (github_update_from_urls env rv s).state.nvs.installed_part ≠
        s.nvs.installed_part) :
    (github_update_from_urls env rv s).err = .ok := by
  rcases from_urls_err_or env rv s with hok | ⟨-, hst⟩
  · exact hok
  · rw [hst] at hmut
    rcases hmut with h | h <;> exact absurd rfl h

theorem store_unchanged (v : String) (plabel : Option String)
    (nvs : NVSState) (hv : v ≠ "")
    (hver : nvs.installed_ver = some (strTrunc31 v))
    (hlab : ∀ l, plabel = some l → l ≠ "" → nvs.installed_part = some l) :
    store_installed_version_if_needed (some v) plabel nvs = (.ok, nvs, []) := by
  have h1 : storeVerStep (strTrunc31 v) nvs = (false, nvs, []) := by
    unfold storeVerStep
    rw [hver]
    simp
  have h2 : storeLabelStep plabel nvs = (false, nvs, []) := by
    unfold storeLabelStep
    cases plabel with
    | none => rfl
    | some l =>
      by_cases hl : l = ""
      · simp [hl]
      · rw [hlab l rfl hl]
        simp [hl]
  unfold store_installed_version_if_needed
  simp [hv, h1, h2]

/-- Claim C10 (amended): the InstalledFirmwareRecord is written only through
`store_installed_version_if_needed`, which leaves the store untouched and
commits nothing when both fields already hold the requested values; the
transfer pipeline mutates the record only on runs whose verification
succeeded; but the record is additionally refreshed on the
already-up-to-date path of the update check, without any verify-and-commit
— every record mutation of the update check happens either on that path or
on a successfully verified transfer. -/
theorem c10_record_mutation_amended :
    (∀ (v : String) (plabel : Option String) (nvs : NVSState),
      v ≠ "" → nvs.installed_ver = some (strTrunc31 v) →
      (∀ l, plabel = some l → l ≠ "" → nvs.installed_part = some l) →
      store_installed_version_if_needed (some v) plabel nvs =
        (.ok, nvs, [])) ∧
    (∀ (env : TransferEnv) (rv : Option String) (s : SysState),
      ((github_update_from_urls env rv s).state.nvs.installed_ver ≠
          s.nvs.installed_ver ∨
        (github_update_from_urls env rv s).state.nvs.installed_part ≠
          s.nvs.installed_part) →
      (github_update_from_urls env rv s).err = .ok) ∧
    (∀ (env : CheckEnv) (s : SysState),
      ((github_update_check_core env s).state.nvs.installed_ver ≠
          s.nvs.installed_ver ∨
        (github_update_check_core env s).state.nvs.installed_part ≠
          s.nvs.installed_part) →
      Ev.upToDate ∈ (github_update_check_core env s).events ∨
        (github_update_check_core env s).err = .ok) := by
  refine ⟨store_unchanged, from_urls_mut_ok, ?_⟩
  intro env s hmut
  by_cases hcond : ((parse_version env.rawTag).valid = true ∧
      (currentTriple env s).valid = true ∧
      cmp_version (parse_version env.rawTag).maj
        (parse_version env.rawTag).mnr (parse_version env.rawTag).pat
        (currentTriple env s).maj (currentTriple env s).mnr
        (currentTriple env s).pat ≤ 0)
  · left
    simp only [github_update_check_core]
    rw [if_pos hcond]
    split_ifs <;> simp
  · right
    revert hmut
    simp only [github_update_check_core]
    rw [if_neg hcond]
    rcases hsa : scanAssets env.assets (none, none) with ⟨fw, sg⟩
    cases fw with
    | none =>
      intro hmut
      rcases hmut with h | h <;> exact absurd rfl h
    | some fu =>
      cases sg with
      | none =>
        intro hmut
        rcases hmut with h | h <;> exact absurd rfl h
      | some su =>
        intro hmut
        dsimp only at hmut ⊢
        exact from_urls_mut_ok env.transfer _ s hmut

/-- Claim C10, witness for the amended theorem: an unchanged record causes no
write and no commit, and a record mutation by the transfer implies its
verification succeeded. -/
theorem c10_record_mutation_amended_witness :
    store_installed_version_if_needed (some "1.0.0") (some "ota_0") nvsBase =
        (.ok, nvsBase, []) ∧
      (github_update_from_urls tenvGood (some "1.2.0") sysBase).err = .ok :=
  ⟨c10_record_mutation_amended.1 "1.0.0" (some "ota_0") nvsBase (by decide)
      (by decide) (fun l hl _ => by cases hl; rfl),
    c10_record_mutation_amended.2.1 tenvGood (some "1.2.0") sysBase
      (Or.inl (by decide))⟩

/-! ### Claim C5 — restart counter -/

/-- Claim C5, counterexample: after 13 consecutive qualifying resets within
the window the persisted counter is 0, not `min 13 max_threshold = 12` —
the counter is reset to zero beyond the maximum instead of saturating. -/
theorem c5_counterexample :
    persistedAfter 13 = 0 ∧ persistedAfter 13 ≠ min 13 THRESHOLD_MAX := by
  decide

theorem qualifyingStep_of_le (c : Nat) (hc : c ≤ 11) :
    qualifyingStep c = c + 1 := by
  have h1 : ¬(c ≥ UINT32_MAX) := by
    simp only [UINT32_MAX]
    omega
  unfold qualifyingStep handle_power_cycle_sequence
  simp only [h1, if_false, THRESHOLD_MAX, THRESHOLD_MIN]
  split_ifs <;> simp_all <;> omega

theorem qualifyingStep_le (c : Nat) (hc : c ≤ THRESHOLD_MAX) :
    qualifyingStep c ≤ THRESHOLD_MAX := by
  rcases Nat.lt_or_ge c 12 with h | h
  · rw [qualifyingStep_of_le c (by omega)]
    simp only [THRESHOLD_MAX] at *
    omega
  · have hc12 : c = 12 := by
      simp only [THRESHOLD_MAX] at hc
      omega
    subst hc12
    decide

/-- Claim C5 (amended): under consecutive qualifying (power-on / external)
resets each within the restart window, the persisted counter after the N-th
reset equals N for N up to `THRESHOLD_MAX` (12); the reset that would push
it past the maximum stores the incremented value momentarily but immediately
clears the persisted counter to 0 (noisy power treated as non-intent), so
the counter does not saturate at the maximum; the persisted value never
exceeds 12 and never wraps; a non-qualifying reset always leaves the
persisted counter at 0. -/
theorem c5_restart_counter_amended :
    (∀ n, n ≤ THRESHOLD_MAX → persistedAfter n = n) ∧
    (∀ n, persistedAfter n ≤ THRESHOLD_MAX) ∧
    (handle_power_cycle_sequence ResetReason.poweron
        THRESHOLD_MAX).storedImmediate = THRESHOLD_MAX + 1 ∧
    persistedAfter (THRESHOLD_MAX + 1) = 0 ∧
    (∀ (r : ResetReason) (c : Nat), r ≠ ResetReason.poweron →
      r ≠ ResetReason.ext →
      (handle_power_cycle_sequence r c).finalStored = 0 ∧
        (handle_power_cycle_sequence r c).factoryReset = false) := by
  refine ⟨?_, ?_, by decide, by decide, ?_⟩
  · intro n hn
    induction n with
    | zero => rfl
    | succ m ih =>
      have hm : m ≤ THRESHOLD_MAX := by omega
      have hm11 : m ≤ 11 := by
        simp only [THRESHOLD_MAX] at hn
        omega
      show qualifyingStep (persistedAfter m) = m + 1
      rw [ih hm, qualifyingStep_of_le m hm11]
  · intro n
    induction n with
    | zero => simp [persistedAfter, THRESHOLD_MAX]
    | succ m ih =>
      exact qualifyingStep_le (persistedAfter m) ih
  · intro r c hr1 hr2
    unfold handle_power_cycle_sequence
    rw [if_pos ⟨hr1, hr2⟩]
    split_ifs <;> simp_all

/-- Claim C5, witness for the amended theorem at concrete counts. -/
theorem c5_restart_counter_amended_witness :
    persistedAfter 5 = 5 ∧ persistedAfter 40 ≤ THRESHOLD_MAX ∧
      (handle_power_cycle_sequence ResetReason.sw 7).finalStored = 0 :=
  ⟨c5_restart_counter_amended.1 5 (by decide),
    c5_restart_counter_amended.2.1 40,
    (c5_restart_counter_amended.2.2.2.2 ResetReason.sw 7 (by decide)
      (by decide)).1⟩

/-! ### Claim C4 — deferred factory-reset erasure -/

/-- Claim C4: at every boot with a deferred erasure marker pending
(an OTA-range subtype), (a) if the device still runs from the marked
subtype, the erase is postponed: the state — marker included — is unchanged
and no erase happens; (b) if the running slot no longer matches and the
marked partition exists and its erase succeeds, that slot is erased and the
marker is cleared; (c) the erase primitive is never invoked on the partition
the device is running from (addresses identify partitions uniquely). -/
theorem c4_deferred_erase (env : ResetEnv) (st : BState) :
    ((16 : Int) ≤ st.pendingSub → st.pendingSub ≤ 32 →
      ∀ r, env.running = some r → (r.subtype : Int) = st.pendingSub →
      finalize_deferred_factory_reset env st = (st, [REv.postpone])) ∧
    ((16 : Int) ≤ st.pendingSub → st.pendingSub ≤ 32 →
      (∀ r, env.running = some r → (r.subtype : Int) ≠ st.pendingSub) →
      ∀ p, st.parts.find? (fun q => q.isApp ∧ (q.subtype : Int) = st.pendingSub)
          = some p →
      ∀ c, env.eraseResult p.address = some c →
      (finalize_deferred_factory_reset env st).1.pendingSub = -1 ∧
        REv.erase p.address true ∈
          (finalize_deferred_factory_reset env st).2) ∧
    (∀ r, env.running = some r →
      (∀ q ∈ st.parts, q.address = r.address → q.subtype = r.subtype) →
      ∀ b, REv.erase r.address b ∉ (finalize_deferred_factory_reset env st).2) := by
  refine ⟨?_, ?_, ?_⟩
  · intro h1 h2 r hr hsub
    unfold finalize_deferred_factory_reset
    rw [if_neg (by simp only [OTA_MIN, OTA_MAX]; push_cast; omega), hr]
    simp [hsub]
  · intro h1 h2 hnr p hfind c hc
    unfold finalize_deferred_factory_reset
    rw [if_neg (by simp only [OTA_MIN, OTA_MAX]; push_cast; omega)]
    have hstill : (match env.running with
        | some r => decide ((r.subtype : Int) = st.pendingSub)
        | none => false) = false := by
      cases hr : env.running with
      | none => rfl
      | some r => simp [hnr r hr]
    rw [hstill]
    simp only [Bool.false_eq_true, if_false, hfind, hc]
    exact ⟨by simp, by simp⟩
  · intro r hr hcons b
    unfold finalize_deferred_factory_reset
    by_cases hrange : (st.pendingSub < (OTA_MIN : Int) ∨
        st.pendingSub > (OTA_MAX : Int))
    · rw [if_pos hrange]
      simp
    · rw [if_neg hrange, hr]
      by_cases hsub : ((r.subtype : Int) = st.pendingSub)
      · simp [hsub]
      · simp only [hsub, decide_eq_true_eq, if_neg, decide_eq_false_iff_not,
          not_false_eq_true, Bool.false_eq_true, if_false]
        cases hfind : st.parts.find?
            (fun q => q.isApp ∧ (q.subtype : Int) = st.pendingSub) with
        | none => simp
        | some p =>
          have hmem := List.mem_of_find?_eq_some hfind
          have hprop := List.find?_some hfind
          simp only [Bool.and_eq_true, decide_eq_true_eq] at hprop
          have haddr : p.address ≠ r.address := by
            intro he
            have := hcons p hmem he
            rw [this] at hprop
            exact hsub hprop.2
          cases hres : env.eraseResult p.address with
          | none => simp [hres, Ne.symm haddr]
          | some c => simp [hres, Ne.symm haddr]

/-- The partition table used by factory-reset fixtures. -/
def bOtadata : BPart := ⟨"otadata", false, 0, 50, [0, 1]⟩

/-- The factory app slot fixture. -/
def bFactory : BPart := ⟨"factory", true, 0, 80, [3]⟩

/-- OTA slot 0 fixture (the slot the device ran from when the reset was
requested). -/
def bOta0 : BPart := ⟨"ota_0", true, 16, 100, [1, 2]⟩

/-- OTA slot 1 fixture. -/
def bOta1 : BPart := ⟨"ota_1", true, 17, 200, [9]⟩

/-- Factory-reset orchestrator state with a deferred erase of subtype 16
pending. -/
def stPending : BState := ⟨[bOtadata, bFactory, bOta0, bOta1], 16, false⟩

/-- Erasure environment: every erase succeeds and leaves two `0xFF` bytes;
the device now runs from the factory slot. -/
def envFinal : ResetEnv :=
  ⟨true, true, fun _ => some [255, 255], some bFactory⟩

/-- Claim C4, witness: with the marker pending on subtype 16 and the device
now running from the factory slot, the deferred erase completes and clears
the marker; with the device still running from `ota_0`, it is postponed. -/
theorem c4_deferred_erase_witness :
    (finalize_deferred_factory_reset envFinal stPending).1.pendingSub = -1 ∧
      REv.erase bOta0.address true ∈
        (finalize_deferred_factory_reset envFinal stPending).2 ∧
      finalize_deferred_factory_reset { envFinal with running := some bOta0 }
        stPending = (stPending, [REv.postpone]) := by
  have h1 := (c4_deferred_erase envFinal stPending).2.1 (by decide) (by decide)
    (by intro r hr; cases hr; decide) bOta0 (by decide) [255, 255] (by decide)
  have h2 := (c4_deferred_erase { envFinal with running := some bOta0 }
    stPending).1 (by decide) (by decide) bOta0 (by decide) (by decide)
  exact ⟨h1.1, h1.2, h2⟩

/-! ### Claim C3 — factory-reset erasure sequence -/

/-- Claim-side checker, following the claim's words: every erasure event
(the KV-store erase included) is immediately followed by a read-back
verification of the same region. -/
def everyErasureVerified : List REv → Bool
  | [] => true
  | REv.kvErase _ :: rest =>
    (match rest with
      | REv.verify _ _ :: _ => true
      | _ => false) && everyErasureVerified rest
  | REv.erase a _ :: rest =>
    (match rest with
      | REv.verify a2 _ :: _ => a == a2
      | _ => false) && everyErasureVerified rest
  | _ :: rest => everyErasureVerified rest

/-- Code-side checker: every SUCCESSFUL partition erase is immediately
followed by a read-back verification of the same partition. -/
def successEraseVerified : List REv → Bool
  | REv.erase a true :: rest =>
    (match rest with
      | REv.verify a2 _ :: _ => a == a2
      | _ => false) && successEraseVerified rest
  | _ :: rest => successEraseVerified rest
  | [] => true

/-- Stricter code-side checker: successful erases and read-back
verifications come in exact adjacent pairs — every successful erase is
immediately followed by a verification of the same partition, and a
verification never occurs anywhere else (in particular never after a FAILED
erase). -/
def erasesVerifiedExactly : List REv → Bool
  | REv.erase a true :: REv.verify a2 _ :: rest =>
    (a == a2) && erasesVerifiedExactly rest
  | REv.erase _ true :: _ => false
  | REv.verify _ _ :: _ => false
  | _ :: rest => erasesVerifiedExactly rest
  | [] => true

/-- Erasure run fixture: the device runs from `ota_0`, all erases succeed
and read back as `0xFF`. -/
def envReset : ResetEnv := ⟨true, true, fun _ => some [255, 255], some bOta0⟩

/-- Factory-reset orchestrator state before the erasure sequence. -/
def stReset : BState := ⟨[bOtadata, bFactory, bOta0, bOta1], -1, false⟩

/-- Claim C3, counterexample: in a fully successful erasure run, the
KV-store erase is an erasure that is NOT followed by any read-back
verification (the code re-initialises NVS right after erasing it), so "each
erasure is followed by a read-back verification" fails. -/
theorem c3_counterexample :
    REv.kvErase true ∈ (factory_reset_task envReset stReset).2 ∧
      everyErasureVerified (factory_reset_task envReset stReset).2 = false := by
  decide

theorem successEraseVerified_cons_other (e : REv) (tl : List REv)
    (he : ∀ a, e ≠ REv.erase a true) :
    successEraseVerified (e :: tl) = successEraseVerified tl := by
  cases e with
  | erase a ok =>
    cases ok with
    | false => rfl
    | true => exact absurd rfl (he a)
  | wifiRestore ok => rfl
  | kvErase ok => rfl
  | kvInit => rfl
  | verify a ok => rfl
  | deferErase a => rfl
  | postpone => rfl
  | reboot => rfl

theorem successEraseVerified_pair (a : Nat) (ok : Bool) (tl : List REv) :
    successEraseVerified (REv.erase a true :: REv.verify a ok :: tl) =
      successEraseVerified tl := by
  have h1 : successEraseVerified (REv.erase a true :: REv.verify a ok :: tl) =
      ((a == a) && successEraseVerified (REv.verify a ok :: tl)) := rfl
  rw [h1, successEraseVerified_cons_other (REv.verify a ok) tl
    (fun a2 h => REv.noConfusion h)]
  simp

theorem erasesVerifiedExactly_cons_other (e : REv) (tl : List REv)
    (he1 : ∀ a, e ≠ REv.erase a true)
    (he2 : ∀ a ok, e ≠ REv.verify a ok) :
    erasesVerifiedExactly (e :: tl) = erasesVerifiedExactly tl := by
  cases e with
  | erase a ok =>
    cases ok with
    | false =>
      cases tl with
      | nil => rfl
      | cons y tl2 => cases y <;> rfl
    | true => exact absurd rfl (he1 a)
  | verify a ok => exact absurd rfl (he2 a ok)
  | wifiRestore ok =>
    cases tl with
    | nil => rfl
    | cons y tl2 => cases y <;> rfl
  | kvErase ok =>
    cases tl with
    | nil => rfl
    | cons y tl2 => cases y <;> rfl
  | kvInit =>
    cases tl with
    | nil => rfl
    | cons y tl2 => cases y <;> rfl
  | deferErase a =>
    cases tl with
    | nil => rfl
    | cons y tl2 => cases y <;> rfl
  | postpone =>
    cases tl with
    | nil => rfl
    | cons y tl2 => cases y <;> rfl
  | reboot =>
    cases tl with
    | nil => rfl
    | cons y tl2 => cases y <;> rfl

theorem erasesVerifiedExactly_pair (a : Nat) (ok : Bool) (tl : List REv) :
    erasesVerifiedExactly (REv.erase a true :: REv.verify a ok :: tl) =
      erasesVerifiedExactly tl := by
  have h1 : erasesVerifiedExactly
      (REv.erase a true :: REv.verify a ok :: tl) =
      ((a == a) && erasesVerifiedExactly tl) := rfl
  rw [h1]
  simp

theorem eraseAppAux_verifiedExactly (env : ResetEnv) (rio : Bool)
    (raddr : Nat) :
    ∀ (parts : List BPart) (st : BState) (tl : List REv),
      erasesVerifiedExactly ((eraseAppAux env rio raddr parts st).2 ++ tl) =
        erasesVerifiedExactly tl := by
  intro parts
  induction parts with
  | nil => intro st tl; rfl
  | cons p rest ih =>
    intro st tl
    unfold eraseAppAux
    by_cases h1 : (p.isApp = true ∧ OTA_MIN ≤ p.subtype ∧ p.subtype ≤ OTA_MAX)
    · rw [if_pos h1]
      by_cases h2 : (rio = true ∧ p.address = raddr)
      · rw [if_pos h2]
        dsimp only
        rw [List.cons_append,
          erasesVerifiedExactly_cons_other _ _ (fun a h => REv.noConfusion h)
            (fun a ok h => REv.noConfusion h),
          ih]
      · rw [if_neg h2]
        cases hres : env.eraseResult p.address with
        | none =>
          dsimp only
          rw [List.cons_append,
            erasesVerifiedExactly_cons_other _ _ (fun a h => by simp at h)
              (fun a ok h => REv.noConfusion h),
            ih]
        | some c =>
          dsimp only
          rw [List.cons_append, List.cons_append, erasesVerifiedExactly_pair,
            ih]
    · rw [if_neg h1]
      exact ih st tl

theorem erase_otadata_verifiedExactly (env : ResetEnv) (st : BState)
    (tl : List REv) :
    erasesVerifiedExactly ((erase_otadata_partition env st).2 ++ tl) =
      erasesVerifiedExactly tl := by
  unfold erase_otadata_partition
  cases hf : findOtadata st.parts with
  | none => rfl
  | some p =>
    dsimp only
    cases hres : env.eraseResult p.address with
    | none =>
      dsimp only
      rw [List.singleton_append,
        erasesVerifiedExactly_cons_other _ _ (fun a h => by simp at h)
          (fun a ok h => REv.noConfusion h)]
    | some c =>
      dsimp only
      rw [List.cons_append, List.cons_append, List.nil_append,
        erasesVerifiedExactly_pair]

theorem erase_otadata_only_its_address (env : ResetEnv) (st : BState)
    (p : BPart) (hp : findOtadata st.parts = some p) :
    (∃ b, REv.erase p.address b ∈ (erase_otadata_partition env st).2) ∧
      (∀ a b, REv.erase a b ∈ (erase_otadata_partition env st).2 →
        a = p.address) := by
  unfold erase_otadata_partition
  rw [hp]
  dsimp only
  cases hres : env.eraseResult p.address with
  | none =>
    refine ⟨⟨false, by simp⟩, ?_⟩
    intro a b hab
    simp at hab
    exact hab.1
  | some c =>
    refine ⟨⟨true, by simp⟩, ?_⟩
    intro a b hab
    simp at hab
    exact hab.1

theorem eraseAppAux_successVerified (env : ResetEnv) (rio : Bool)
    (raddr : Nat) :
    ∀ (parts : List BPart) (st : BState) (tl : List REv),
      successEraseVerified ((eraseAppAux env rio raddr parts st).2 ++ tl) =
        successEraseVerified tl := by
  intro parts
  induction parts with
  | nil => intro st tl; rfl
  | cons p rest ih =>
    intro st tl
    unfold eraseAppAux
    by_cases h1 : (p.isApp = true ∧ OTA_MIN ≤ p.subtype ∧ p.subtype ≤ OTA_MAX)
    · rw [if_pos h1]
      by_cases h2 : (rio = true ∧ p.address = raddr)
      · rw [if_pos h2]
        dsimp only
        rw [List.cons_append,
          successEraseVerified_cons_other _ _ (fun a h => REv.noConfusion h),
          ih]
      · rw [if_neg h2]
        cases hres : env.eraseResult p.address with
        | none =>
          dsimp only
          rw [List.cons_append,
            successEraseVerified_cons_other _ _
              (fun a h => by simp at h),
            ih]
        | some c =>
          dsimp only
          rw [List.cons_append, List.cons_append, successEraseVerified_pair,
            ih]
    · rw [if_neg h1]
      exact ih st tl

theorem eraseAppAux_mem_erase (env : ResetEnv) (rio : Bool) (raddr : Nat) :
    ∀ (parts : List BPart) (st : BState) (p : BPart), p ∈ parts →
      p.isApp = true → OTA_MIN ≤ p.subtype → p.subtype ≤ OTA_MAX →
      ¬(rio = true ∧ p.address = raddr) →
      ∃ b, REv.erase p.address b ∈ (eraseAppAux env rio raddr parts st).2 := by
  intro parts
  induction parts with
  | nil => intro st p hp; simp at hp
  | cons q rest ih =>
    intro st p hp happ hlo hhi hnr
    rcases List.mem_cons.mp hp with rfl | hp2
    · unfold eraseAppAux
      rw [if_pos ⟨happ, hlo, hhi⟩, if_neg hnr]
      cases hres : env.eraseResult p.address with
      | none => exact ⟨false, by simp⟩
      | some c => exact ⟨true, by simp⟩
    · unfold eraseAppAux
      by_cases h1 : (q.isApp = true ∧ OTA_MIN ≤ q.subtype ∧ q.subtype ≤ OTA_MAX)
      · rw [if_pos h1]
        by_cases h2 : (rio = true ∧ q.address = raddr)
        · rw [if_pos h2]
          obtain ⟨b, hb⟩ := ih { st with pendingSub := (q.subtype : Int) } p
            hp2 happ hlo hhi hnr
          exact ⟨b, List.mem_cons_of_mem _ hb⟩
        · rw [if_neg h2]
          cases hres : env.eraseResult q.address with
          | none =>
            obtain ⟨b, hb⟩ := ih st p hp2 happ hlo hhi hnr
            exact ⟨b, List.mem_cons_of_mem _ hb⟩
          | some c =>
            obtain ⟨b, hb⟩ := ih
              { st with parts := setContents st.parts q.address c } p hp2 happ
              hlo hhi hnr
            exact ⟨b, List.mem_cons_of_mem _ (List.mem_cons_of_mem _ hb)⟩
      · rw [if_neg h1]
        exact ih st p hp2 happ hlo hhi hnr

theorem eraseAppAux_no_running (env : ResetEnv) (raddr : Nat) :
    ∀ (parts : List BPart) (st : BState) (b : Bool),
      REv.erase raddr b ∉ (eraseAppAux env true raddr parts st).2 := by
  intro parts
  induction parts with
  | nil => intro st b h; simp [eraseAppAux] at h
  | cons q rest ih =>
    intro st b
    unfold eraseAppAux
    by_cases h1 : (q.isApp = true ∧ OTA_MIN ≤ q.subtype ∧ q.subtype ≤ OTA_MAX)
    · rw [if_pos h1]
      by_cases h2 : (true = true ∧ q.address = raddr)
      · rw [if_pos h2]
        intro h
        rcases List.mem_cons.mp h with h3 | h3
        · exact REv.noConfusion h3
        · exact ih _ b h3
      · rw [if_neg h2]
        have hqa : q.address ≠ raddr := fun he => h2 ⟨rfl, he⟩
        cases hres : env.eraseResult q.address with
        | none =>
          intro h
          rcases List.mem_cons.mp h with h3 | h3
          · injection h3 with h4 h5
            exact hqa h4.symm
          · exact ih _ b h3
        | some c =>
          intro h
          rcases List.mem_cons.mp h with h3 | h3
          · injection h3 with h4 h5
            exact hqa h4.symm
          · rcases List.mem_cons.mp h3 with h6 | h6
            · exact REv.noConfusion h6
            · exact ih _ b h6
    · rw [if_neg h1]
      exact ih _ b

theorem erase_otadata_successVerified (env : ResetEnv) (st : BState)
    (tl : List REv) :
    successEraseVerified ((erase_otadata_partition env st).2 ++ tl) =
      successEraseVerified tl := by
  unfold erase_otadata_partition
  cases hf : findOtadata st.parts with
  | none => rfl
  | some p =>
    dsimp only
    cases hres : env.eraseResult p.address with
    | none =>
      dsimp only
      rw [List.singleton_append,
        successEraseVerified_cons_other _ _ (fun a h => by simp at h)]
    | some c =>
      dsimp only
      rw [List.cons_append, List.cons_append, List.nil_append,
        successEraseVerified_pair]

theorem erase_otadata_no_addr (env : ResetEnv) (st : BState) (addr : Nat)
    (h : ∀ q ∈ st.parts, q.isApp = false → q.address ≠ addr) :
    ∀ b, REv.erase addr b ∉ (erase_otadata_partition env st).2 := by
  intro b
  unfold erase_otadata_partition
  cases hf : findOtadata st.parts with
  | none => simp
  | some p =>
    have hmem := List.mem_of_find?_eq_some hf
    have hprop := List.find?_some hf
    simp only [Bool.and_eq_true, decide_eq_true_eq] at hprop
    have haddr : p.address ≠ addr := h p hmem hprop.1
    dsimp only
    cases hres : env.eraseResult p.address with
    | none => simp [hres, Ne.symm haddr]
    | some c => simp [hres, Ne.symm haddr]

/-- Fields other than the contents are untouched when a partition's contents
are replaced. -/
theorem setContents_map_fields (parts : List BPart) (addr : Nat)
    (c : List Nat) :
    ∀ q ∈ parts, ∃ q2 ∈ setContents parts addr c,
      q2.isApp = q.isApp ∧ q2.subtype = q.subtype ∧ q2.address = q.address := by
  intro q hq
  refine ⟨if q.address = addr then { q with contents := c } else q,
    List.mem_map_of_mem _ hq, ?_⟩
  split_ifs <;> simp

theorem otadata_preserves_parts (env : ResetEnv) (st : BState) :
    ∀ q ∈ st.parts, ∃ q2 ∈ (erase_otadata_partition env st).1.parts,
      q2.isApp = q.isApp ∧ q2.subtype = q.subtype ∧ q2.address = q.address := by
  intro q hq
  unfold erase_otadata_partition
  cases hf : findOtadata st.parts with
  | none => exact ⟨q, hq, rfl, rfl, rfl⟩
  | some pp =>
    dsimp only
    cases hres : env.eraseResult pp.address with
    | none => exact ⟨q, hq, rfl, rfl, rfl⟩
    | some c => exact setContents_map_fields st.parts pp.address c q hq

/-- Claim C3 (amended): the factory-reset erasure sequence performs, in
order, the radio/network restore, the KV-store erase (immediately followed
by re-initialisation of the KV store, with NO read-back verification), then
the boot-pointer (otadata) region, then the OTA application slots: the
trace starts with exactly `[wifiRestore, kvErase, kvInit]`, and when an
otadata partition exists the trace continues with a segment whose erase
events all target the otadata region — and include it — before any event of
the OTA-slot phase (every OTA-slot erase therefore comes after the
boot-pointer erase); every SUCCESSFUL partition erase is immediately
followed by a read-back verification of that partition, and a read-back
verification happens ONLY right after a successful erase (never after a
failed one); every OTA app slot other than the running one gets an erase
attempt regardless of earlier failures (no abort); the running slot is
never erased and the post-reset verification marker is armed before
reboot. -/
theorem c3_erasure_sequence_amended (env : ResetEnv) (st : BState) :
    ((factory_reset_task env st).2.take 3 =
      [REv.wifiRestore env.wifiOk, REv.kvErase env.kvEraseOk, REv.kvInit]) ∧
    successEraseVerified (factory_reset_task env st).2 = true ∧
    (∀ p ∈ st.parts, p.isApp = true → OTA_MIN ≤ p.subtype →
      p.subtype ≤ OTA_MAX →
      (∀ r, env.running = some r → p.address ≠ r.address) →
      ∃ b, REv.erase p.address b ∈ (factory_reset_task env st).2) ∧
    (∀ r, env.running = some r → OTA_MIN ≤ r.subtype → r.subtype ≤ OTA_MAX →
      (∀ q ∈ st.parts, q.isApp = false → q.address ≠ r.address) →
      ∀ b, REv.erase r.address b ∉ (factory_reset_task env st).2) ∧
    (factory_reset_task env st).1.verifPending = true ∧
    (∀ p, findOtadata st.parts = some p →
      ∃ otaEvents appEvents, (factory_reset_task env st).2 =
          [REv.wifiRestore env.wifiOk, REv.kvErase env.kvEraseOk, REv.kvInit]
            ++ otaEvents ++ appEvents ∧
        (∃ b, REv.erase p.address b ∈ otaEvents) ∧
        (∀ a b, REv.erase a b ∈ otaEvents → a = p.address)) ∧
    erasesVerifiedExactly (factory_reset_task env st).2 = true := by
  refine ⟨rfl, ?_, ?_, ?_, rfl, ?_, ?_⟩
  · unfold factory_reset_task
    dsimp only
    simp only [List.cons_append, List.nil_append]
    rw [successEraseVerified_cons_other _ _ (fun a h => REv.noConfusion h),
      successEraseVerified_cons_other _ _ (fun a h => REv.noConfusion h),
      successEraseVerified_cons_other _ _ (fun a h => REv.noConfusion h),
      List.append_assoc, erase_otadata_successVerified]
    unfold erase_ota_app_partitions
    dsimp only
    rw [eraseAppAux_successVerified]
    rfl
  · intro p hp happ hlo hhi hnr
    obtain ⟨p2, hp2mem, hisApp, hsub, haddr⟩ :=
      otadata_preserves_parts env st p hp
    unfold factory_reset_task erase_ota_app_partitions
    dsimp only
    set rio := (match env.running with
      | some r => decide (OTA_MIN ≤ r.subtype ∧ r.subtype ≤ OTA_MAX)
      | none => false) with hrio
    set raddr := (match env.running with
      | some r => r.address
      | none => 0) with hraddr
    set st0 := if rio = false
      then { (erase_otadata_partition env st).1 with pendingSub := -1 }
      else (erase_otadata_partition env st).1 with hst0
    have hparts0 : st0.parts = (erase_otadata_partition env st).1.parts := by
      rw [hst0]
      split_ifs <;> rfl
    have hguard : ¬(rio = true ∧ p2.address = raddr) := by
      rw [haddr, hrio, hraddr]
      cases hr : env.running with
      | none => simp
      | some r =>
        dsimp only
        intro hand
        exact hnr r hr hand.2
    obtain ⟨b, hb⟩ := eraseAppAux_mem_erase env rio raddr st0.parts st0 p2
      (by rw [hparts0]; exact hp2mem) (by rw [hisApp]; exact happ)
      (by rw [hsub]; exact hlo) (by rw [hsub]; exact hhi) hguard
    refine ⟨b, ?_⟩
    rw [← haddr]
    simp only [List.cons_append, List.nil_append, List.mem_cons,
      List.mem_append]
    tauto
  · intro r hr hlo hhi hdisj b
    unfold factory_reset_task erase_ota_app_partitions
    dsimp only
    rw [hr]
    dsimp only
    rw [decide_eq_true (show OTA_MIN ≤ r.subtype ∧ r.subtype ≤ OTA_MAX
      from ⟨hlo, hhi⟩), if_neg (by simp : ¬(true = false))]
    intro hmem
    simp only [List.cons_append, List.nil_append, List.mem_cons,
      List.mem_append] at hmem
    rcases hmem with h | h | h | (h | h) | h
    · exact REv.noConfusion h
    · exact REv.noConfusion h
    · exact REv.noConfusion h
    · exact erase_otadata_no_addr env st r.address hdisj b h
    · exact eraseAppAux_no_running env r.address _ _ b h
    · rcases h with h | h
      · exact REv.noConfusion h
      · simp at h
  · intro p hp
    refine ⟨(erase_otadata_partition env st).2,
      (erase_ota_app_partitions env (erase_otadata_partition env st).1).2 ++
        [REv.reboot], ?_, ?_, ?_⟩
    · unfold factory_reset_task
      dsimp only
      simp only [List.append_assoc]
    · exact (erase_otadata_only_its_address env st p hp).1
    · exact (erase_otadata_only_its_address env st p hp).2
  · unfold factory_reset_task
    dsimp only
    simp only [List.cons_append, List.nil_append]
    rw [erasesVerifiedExactly_cons_other _ _ (fun a h => REv.noConfusion h)
        (fun a ok h => REv.noConfusion h),
      erasesVerifiedExactly_cons_other _ _ (fun a h => REv.noConfusion h)
        (fun a ok h => REv.noConfusion h),
      erasesVerifiedExactly_cons_other _ _ (fun a h => REv.noConfusion h)
        (fun a ok h => REv.noConfusion h),
      List.append_assoc, erase_otadata_verifiedExactly]
    unfold erase_ota_app_partitions
    dsimp only
    rw [eraseAppAux_verifiedExactly]
    rfl

/-- Claim C3, witness for the amended theorem on the concrete fixture:
successful erases are verified, the non-running slot `ota_1` gets an erase
attempt, and the running slot `ota_0` is never erased. -/
theorem c3_erasure_sequence_amended_witness :
    successEraseVerified (factory_reset_task envReset stReset).2 = true ∧
      (∃ b, REv.erase bOta1.address b ∈ (factory_reset_task envReset stReset).2) ∧
      (∀ b, REv.erase bOta0.address b ∉ (factory_reset_task envReset stReset).2) ∧
      erasesVerifiedExactly (factory_reset_task envReset stReset).2 = true ∧
      (∃ b, REv.erase bOtadata.address b ∈
        (factory_reset_task envReset stReset).2) := by
  have h := c3_erasure_sequence_amended envReset stReset
  refine ⟨h.2.1, ?_, ?_, h.2.2.2.2.2.2, ?_⟩
  · exact h.2.2.1 bOta1 (by decide) (by decide) (by decide) (by decide)
      (by intro r hr; cases hr; decide)
  · exact h.2.2.2.1 bOta0 rfl (by decide) (by decide) (by decide)
  · obtain ⟨ota, app, heq, ⟨b, hb⟩, -⟩ :=
      h.2.2.2.2.2.1 bOtadata (by decide)
    refine ⟨b, ?_⟩
    rw [heq]
    exact List.mem_append_left _ (List.mem_append_right _ hb)

end LCM
